import Mathlib

/-!
Verification of the wee-slack asynchronous task scheduler and HTTP request
pipeline (src/slack.py), as a shallow embedding in Lean 4.

The Python registries active_tasks / active_responses are modelled as
association lists with string keys; Python dict lookup, pop and assignment
become lookupA, eraseA and insertA.  A coroutine is modelled as a resumable
computation: at each suspension point it either returns a value, yields a
Future id together with a continuation expecting the response, or raises an
exception.  task_runner is the literal translation of the while loop at
src/slack.py lines 221-245, made total with a fuel parameter counting
coroutine resumptions (each fuel unit is one call to coroutine.send).
-/

namespace WeeSlack

/-- Association list lookup, modelling Python dict membership and access. -/
def lookupA {α : Type} : List (String × α) → String → Option α
  | [], _ => none
  | (k, v) :: rest, key => if k = key then some v else lookupA rest key

/-- Association list removal of the first binding of a key, modelling
Python dict.pop on a dict whose keys are unique. -/
def eraseA {α : Type} : List (String × α) → String → List (String × α)
  | [], _ => []
  | (k, v) :: rest, key => if k = key then rest else (k, v) :: eraseA rest key

/-- Association list insertion, modelling Python dict assignment of a key
that is known to be absent (the code checks membership and raises first). -/
def insertA {α : Type} (l : List (String × α)) (k : String) (v : α) :
    List (String × α) :=
  (k, v) :: l

/-- The keys of an association list. -/
def keysA {α : Type} (l : List (String × α)) : List String :=
  l.map Prod.fst

/-- A coroutine, modelled as the remainder of a suspendable computation.
ret models the coroutine returning (StopIteration with a value), yieldF
models the coroutine yielding a Future with the given id (awaiting it) and
continuing with the response it is resumed with, raiseE models the
coroutine raising an exception other than StopIteration. -/
inductive Coro (V : Type) : Type where
  | ret : V → Coro V
  | yieldF : String → (V → Coro V) → Coro V
  | raiseE : String → Coro V

/-- A Task (src/slack.py class Task): a Future id, the owned coroutine in
its current suspension state (a function consuming the next value sent to
it), and the final flag. -/
structure MTask (V : Type) where
  id : String
  co : V → Coro V
  final : Bool

/-- The two process-wide registries of src/slack.py lines 203-204:
active_tasks maps the id of an awaited Future to the task suspended on it,
active_responses maps the id of a completed task to its result. -/
structure Sched (V : Type) where
  active_tasks : List (String × MTask V)
  active_responses : List (String × V)

/-- The ways a run of task_runner can end without reaching a quiescent
registry state: fuel exhaustion (an artefact of making the embedding
total), the two invariant-violation exceptions raised at src/slack.py
lines 229 and 240, and an exception raised by the coroutine itself, which
the Python code does not catch (the try block only catches StopIteration)
and therefore propagates to the caller. -/
inductive SchedErr where
  | fuelOut : SchedErr
  | futureInActiveTasks : String → SchedErr
  | taskInActiveResponses : String → SchedErr
  | uncaught : String → SchedErr
  | keyError : String → SchedErr
deriving DecidableEq

/-- Literal translation of task_runner (src/slack.py lines 221-245).
Each iteration of the Python while loop sends the current response into
the current coroutine of the current task and dispatches on the outcome:
a yielded Future is either satisfied at once from active_responses, or the
task is parked in active_tasks (raising if the id is already a key);
StopIteration resumes a waiting parent popped from active_tasks, or stores
the value in active_responses when the task is not final (raising if the
id is already a key), or discards it when the task is final. -/
def task_runner {V : Type} : Nat → MTask V → V → Sched V →
    Except SchedErr (Sched V)
  | 0, _, _, _ => .error .fuelOut
  | fuel + 1, task, response, st =>
    match task.co response with
    | .raiseE e => .error (.uncaught e)
    | .yieldF fid k =>
      match lookupA st.active_responses fid with
      | some r =>
        task_runner fuel ⟨task.id, k, task.final⟩ r
          ⟨st.active_tasks, eraseA st.active_responses fid⟩
      | none =>
        match lookupA st.active_tasks fid with
        | some _ => .error (.futureInActiveTasks fid)
        | none =>
          .ok ⟨insertA st.active_tasks fid ⟨task.id, k, task.final⟩,
               st.active_responses⟩
    | .ret v =>
      match lookupA st.active_tasks task.id with
      | some parent =>
        task_runner fuel parent v ⟨eraseA st.active_tasks task.id,
          st.active_responses⟩
      | none =>
        match lookupA st.active_responses task.id with
        | some _ => .error (.taskInActiveResponses task.id)
        | none =>
          if task.final then .ok st
          else .ok ⟨st.active_tasks, insertA st.active_responses task.id v⟩

/-- create_task (src/slack.py lines 248-253): wrap the coroutine in a
fresh task and immediately run it.  Python sends None as the initial
value; the fresh coroutine ignores the value it is first sent, which the
embedding makes explicit by the constant continuation. -/
def create_task {V : Type} (fuel : Nat) (c : Coro V) (final : Bool)
    (id : String) (init : V) (st : Sched V) : Except SchedErr (Sched V) :=
  task_runner fuel ⟨id, fun _ => c, final⟩ init st

/-- weechat_task_cb (src/slack.py lines 212-215): the host callback pops
the task registered under the delivered id from active_tasks and resumes
it with the delivered payload.  Python dict.pop raises KeyError when the
id is absent. -/
def weechat_task_cb {V : Type} (fuel : Nat) (data : String) (args : V)
    (st : Sched V) : Except SchedErr (Sched V) :=
  match lookupA st.active_tasks data with
  | none => .error (.keyError data)
  | some task => task_runner fuel task args ⟨eraseA st.active_tasks data,
      st.active_responses⟩

/-- The registry invariant: no id is a key of both registries, and each
registry has no duplicate keys. -/
def Inv {V : Type} (st : Sched V) : Prop :=
  (∀ id, id ∈ keysA st.active_tasks → id ∉ keysA st.active_responses) ∧
  (keysA st.active_tasks).Nodup ∧ (keysA st.active_responses).Nodup

theorem lookupA_eq_none {α : Type} {l : List (String × α)} {k : String} :
    lookupA l k = none ↔ k ∉ keysA l := by
  induction l with
  | nil => simp [lookupA, keysA]
  | cons hd tl ih =>
    obtain ⟨k', v⟩ := hd
    by_cases h : k' = k
    · subst h
      simp [lookupA, keysA]
    · simp [lookupA, keysA, h, ih, Ne.symm h]

theorem keysA_eraseA_sublist {α : Type} (l : List (String × α)) (k : String) :
    (keysA (eraseA l k)).Sublist (keysA l) := by
  induction l with
  | nil => simp [eraseA, keysA]
  | cons hd tl ih =>
    obtain ⟨k', v⟩ := hd
    by_cases h : k' = k
    · simp only [eraseA, keysA, h, if_pos rfl, List.map_cons]
      exact List.sublist_cons_self _ _
    · simp only [eraseA, keysA, if_neg h, List.map_cons]
      exact List.Sublist.cons₂ _ ih

theorem mem_keysA_eraseA {α : Type} {l : List (String × α)} {k k' : String}
    (h : k' ∈ keysA (eraseA l k)) : k' ∈ keysA l :=
  (keysA_eraseA_sublist l k).subset h

theorem nodup_keysA_eraseA {α : Type} {l : List (String × α)} {k : String}
    (h : (keysA l).Nodup) : (keysA (eraseA l k)).Nodup :=
  h.sublist (keysA_eraseA_sublist l k)

theorem keysA_insertA {α : Type} (l : List (String × α)) (k : String) (v : α) :
    keysA (insertA l k v) = k :: keysA l := rfl

theorem Inv_erase_responses {V : Type} {st : Sched V} {fid : String}
    (h : Inv st) :
    Inv ⟨st.active_tasks, eraseA st.active_responses fid⟩ := by
  obtain ⟨hdisj, hnt, hnr⟩ := h
  refine ⟨fun id hid hmem => hdisj id hid (mem_keysA_eraseA hmem), hnt,
    nodup_keysA_eraseA hnr⟩

theorem Inv_erase_tasks {V : Type} {st : Sched V} {tid : String}
    (h : Inv st) :
    Inv ⟨eraseA st.active_tasks tid, st.active_responses⟩ := by
  obtain ⟨hdisj, hnt, hnr⟩ := h
  exact ⟨fun id hid => hdisj id (mem_keysA_eraseA hid),
    nodup_keysA_eraseA hnt, hnr⟩

theorem Inv_insert_tasks {V : Type} {st : Sched V} {fid : String}
    {t : MTask V} (h : Inv st)
    (hr : lookupA st.active_responses fid = none)
    (ht : lookupA st.active_tasks fid = none) :
    Inv ⟨insertA st.active_tasks fid t, st.active_responses⟩ := by
  obtain ⟨hdisj, hnt, hnr⟩ := h
  refine ⟨?_, ?_, hnr⟩
  · intro id hid
    rw [keysA_insertA, List.mem_cons] at hid
    rcases hid with rfl | hid
    · exact lookupA_eq_none.mp hr
    · exact hdisj id hid
  · rw [keysA_insertA]
    exact List.Nodup.cons (lookupA_eq_none.mp ht) hnt

theorem Inv_insert_responses {V : Type} {st : Sched V} {tid : String}
    {v : V} (h : Inv st)
    (ht : lookupA st.active_tasks tid = none)
    (hr : lookupA st.active_responses tid = none) :
    Inv ⟨st.active_tasks, insertA st.active_responses tid v⟩ := by
  obtain ⟨hdisj, hnt, hnr⟩ := h
  refine ⟨?_, hnt, ?_⟩
  · intro id hid
    rw [keysA_insertA, List.mem_cons]
    push_neg
    exact ⟨fun heq => lookupA_eq_none.mp ht (heq ▸ hid), hdisj id hid⟩
  · rw [keysA_insertA]
    exact List.Nodup.cons (lookupA_eq_none.mp hr) hnr

/-- The run loop preserves the registry invariant on every successful run. -/
theorem task_runner_preserves_Inv {V : Type} :
    ∀ (fuel : Nat) (task : MTask V) (response : V) (st st' : Sched V),
      Inv st → task_runner fuel task response st = .ok st' → Inv st'
  | 0, task, response, st, st', _, h => by
    simp [task_runner] at h
  | fuel + 1, task, response, st, st', hInv, h => by
    rw [task_runner] at h
    cases hco : task.co response with
    | raiseE e => rw [hco] at h; exact absurd h (by simp)
    | yieldF fid k =>
      rw [hco] at h
      simp only at h
      cases hr : lookupA st.active_responses fid with
      | some r =>
        rw [hr] at h
        exact task_runner_preserves_Inv fuel _ r _ st'
          (Inv_erase_responses hInv) h
      | none =>
        rw [hr] at h
        cases ht : lookupA st.active_tasks fid with
        | some p => rw [ht] at h; exact absurd h (by simp)
        | none =>
          rw [ht] at h
          simp only [Except.ok.injEq] at h
          exact h ▸ Inv_insert_tasks hInv hr ht
    | ret v =>
      rw [hco] at h
      simp only at h
      cases ht : lookupA st.active_tasks task.id with
      | some parent =>
        rw [ht] at h
        exact task_runner_preserves_Inv fuel parent v _ st'
          (Inv_erase_tasks hInv) h
      | none =>
        rw [ht] at h
        cases hr : lookupA st.active_responses task.id with
        | some w => rw [hr] at h; exact absurd h (by simp)
        | none =>
          rw [hr] at h
          cases hf : task.final with
          | true =>
            simp only [hf, if_true, Except.ok.injEq] at h
            exact h ▸ hInv
          | false =>
            simp only [hf, Bool.false_eq_true, if_false, Except.ok.injEq] at h
            exact h ▸ Inv_insert_responses hInv ht hr

/-- Yield step, stored response present: the result is popped and the same
coroutine is resumed with it at once; active_tasks is untouched. -/
theorem task_runner_yield_hit {V : Type} {fuel : Nat} {task : MTask V}
    {response r : V} {fid : String} {k : V → Coro V} {st : Sched V}
    (hco : task.co response = .yieldF fid k)
    (hr : lookupA st.active_responses fid = some r) :
    task_runner (fuel + 1) task response st =
      task_runner fuel ⟨task.id, k, task.final⟩ r
        ⟨st.active_tasks, eraseA st.active_responses fid⟩ := by
  rw [task_runner, hco]
  simp only [hr]

/-- Yield step, no stored response and the future id unused: the task is
parked in active_tasks under the future id and control returns to the
host. -/
theorem task_runner_yield_park {V : Type} {fuel : Nat} {task : MTask V}
    {response : V} {fid : String} {k : V → Coro V} {st : Sched V}
    (hco : task.co response = .yieldF fid k)
    (hr : lookupA st.active_responses fid = none)
    (ht : lookupA st.active_tasks fid = none) :
    task_runner (fuel + 1) task response st =
      .ok ⟨insertA st.active_tasks fid ⟨task.id, k, task.final⟩,
           st.active_responses⟩ := by
  rw [task_runner, hco]
  simp only [hr, ht]

/-- Yield step, future id already registered: fatal exception, no silent
overwrite. -/
theorem task_runner_yield_fatal {V : Type} {fuel : Nat} {task : MTask V}
    {response : V} {fid : String} {k : V → Coro V} {p : MTask V}
    {st : Sched V}
    (hco : task.co response = .yieldF fid k)
    (hr : lookupA st.active_responses fid = none)
    (ht : lookupA st.active_tasks fid = some p) :
    task_runner (fuel + 1) task response st =
      .error (.futureInActiveTasks fid) := by
  rw [task_runner, hco]
  simp only [hr, ht]

/-- Completion step with a waiting parent: the parent is popped from
active_tasks and resumed with the value; nothing is stored. -/
theorem task_runner_ret_resume {V : Type} {fuel : Nat} {task : MTask V}
    {response v : V} {parent : MTask V} {st : Sched V}
    (hco : task.co response = .ret v)
    (ht : lookupA st.active_tasks task.id = some parent) :
    task_runner (fuel + 1) task response st =
      task_runner fuel parent v
        ⟨eraseA st.active_tasks task.id, st.active_responses⟩ := by
  rw [task_runner, hco]
  simp only [ht]

/-- Completion step, nobody waiting, non-final task: the value is stored
once in active_responses. -/
theorem task_runner_ret_store {V : Type} {fuel : Nat} {task : MTask V}
    {response v : V} {st : Sched V}
    (hco : task.co response = .ret v)
    (ht : lookupA st.active_tasks task.id = none)
    (hr : lookupA st.active_responses task.id = none)
    (hf : task.final = false) :
    task_runner (fuel + 1) task response st =
      .ok ⟨st.active_tasks, insertA st.active_responses task.id v⟩ := by
  rw [task_runner, hco]
  simp only [ht, hr, hf, Bool.false_eq_true, if_false]

/-- Completion step, nobody waiting, final task: the value is discarded
and the registries are unchanged. -/
theorem task_runner_ret_discard {V : Type} {fuel : Nat} {task : MTask V}
    {response v : V} {st : Sched V}
    (hco : task.co response = .ret v)
    (ht : lookupA st.active_tasks task.id = none)
    (hr : lookupA st.active_responses task.id = none)
    (hf : task.final = true) :
    task_runner (fuel + 1) task response st = .ok st := by
  rw [task_runner, hco]
  simp only [ht, hr, hf, if_true]

/-- Completion step, task id already has a stored response: fatal
exception, no silent overwrite. -/
theorem task_runner_ret_fatal {V : Type} {fuel : Nat} {task : MTask V}
    {response v w : V} {st : Sched V}
    (hco : task.co response = .ret v)
    (ht : lookupA st.active_tasks task.id = none)
    (hr : lookupA st.active_responses task.id = some w) :
    task_runner (fuel + 1) task response st =
      .error (.taskInActiveResponses task.id) := by
  rw [task_runner, hco]
  simp only [ht, hr]

/-- A coroutine exception other than StopIteration is not caught by the
run loop and propagates to the caller. -/
theorem task_runner_raise {V : Type} {fuel : Nat} {task : MTask V}
    {response : V} {e : String} {st : Sched V}
    (hco : task.co response = .raiseE e) :
    task_runner (fuel + 1) task response st = .error (.uncaught e) := by
  rw [task_runner, hco]

/-- An uncaught-error record, with the fields id, time and exception read
by the consumer in src/slack/commands.py (print_uncaught_error and the
slack debug error command). -/
structure UncaughtError where
  id : String
  time : Nat
  exception : String
deriving DecidableEq

/-- Modelled from the spec: the top-level driver for final tasks.  The
module slack/task.py holding the real driver and the shared uncaught-error
history is not included under src/; only its consumer is
(src/slack/commands.py reads shared.uncaught_errors records and prints
their id, time and exception fields).  Per spec section 4.2, the driver
runs the final task and, when the coroutine raises, catches the exception,
appends an UncaughtError record with an id, a timestamp and the exception
to the history list, and does not let the exception escape to the host; a
run that does not raise leaves the history unchanged.  The registry state
on the caught path is kept as the state before the run, because the
embedded task_runner does not report the part-way updated registries
alongside a propagated exception. -/
def create_task_final {V : Type} (fuel : Nat) (c : Coro V) (id : String)
    (time : Nat) (init : V) (st : Sched V) (history : List UncaughtError) :
    Except SchedErr (Sched V × List UncaughtError) :=
  match create_task fuel c true id init st with
  | .ok st' => .ok (st', history)
  | .error (.uncaught e) => .ok (st, history ++ [⟨id, time, e⟩])
  | .error err => .error err

/-- A transport response for one attempt of the subprocess-backed HTTP
transport: the process return code, the stdout text (status line, headers
and body when the process succeeded) and the stderr text, as delivered by
hook_process_hashtable. -/
structure TResp where
  rc : Int
  out : String
  err : String

/-- The externally visible suspensions and transport attempts performed by
http_request: one attempt event per transport round trip (recording the
url, options, timeout and retry budget passed down) and one sleep event
per scheduler suspension via sleep(ms). -/
inductive HEvent where
  | attempt : String → List (String × String) → Nat → Nat → HEvent
  | sleep : Int → HEvent
deriving DecidableEq

/-- The outcome of http_request: a returned body, a raised HttpError
carrying url, transport return code, http status and error text
(src/slack.py class HttpError), a raised ValueError from parsing
(str.index without a separator, tuple unpacking of a colon-free header
line, or int() on a non-numeric token), or exhaustion of the modelled
list of transport responses. -/
inductive HttpResult where
  | ok : String → HttpResult
  | httpError : String → Int → Int → String → HttpResult
  | valueError : HttpResult
  | noMoreResponses : HttpResult
deriving DecidableEq

/-- Python dict assignment of the header option
(src/slack.py line 302, options with key header set to the string 1). -/
def setHeader (options : List (String × String)) : List (String × String) :=
  ("header", "1") :: eraseA options "header"

/-- Whether the first character list is an initial segment of the second. -/
def isPrefixOfL : List Char → List Char → Bool
  | [], _ => true
  | _ :: _, [] => false
  | a :: as, b :: bs => a = b && isPrefixOfL as bs

/-- Split a character list around the first occurrence of a non-empty
separator: the part strictly before it and the part strictly after it;
none when the separator does not occur. -/
def splitFirstL (sep : List Char) : List Char → Option (List Char × List Char)
  | [] => none
  | c :: cs =>
    if isPrefixOfL sep (c :: cs) then
      some ([], List.drop (sep.length - 1) cs)
    else match splitFirstL sep cs with
      | none => none
      | some (a, b) => some (c :: a, b)

/-- Split a character list at every non-overlapping occurrence of the
separator, left to right, keeping empty parts, as Python str.split with a
separator argument does.  The fuel argument only makes the recursion
structural; each step consumes at least one character, so any fuel above
the list length is enough. -/
def splitAllL (sep : List Char) : Nat → List Char → List Char →
    List (List Char)
  | 0, _, acc => [acc.reverse]
  | _ + 1, [], acc => [acc.reverse]
  | fuel + 1, c :: cs, acc =>
    if isPrefixOfL sep (c :: cs) then
      acc.reverse :: splitAllL sep fuel (List.drop (sep.length - 1) cs) []
    else
      splitAllL sep fuel cs (c :: acc)

/-- Split a string around the first occurrence of a separator, modelling
Python str.index followed by the two slices; none when the separator does
not occur (Python str.index raises ValueError). -/
def splitOnFirst (s sep : String) : Option (String × String) :=
  match splitFirstL sep.data s.data with
  | none => none
  | some (a, b) => some (⟨a⟩, ⟨b⟩)

/-- Python str.split with a separator argument. -/
def splitOnAll (s sep : String) : List String :=
  (splitAllL sep.data (s.data.length + 1) s.data []).map String.mk

/-- The whitespace characters stripped by Python str.strip and int(). -/
def isSpaceC (c : Char) : Bool :=
  c = ' ' || c = '\t' || c = '\n' || c = '\x0d' || c = '\x0c' || c = '\x0b'

/-- Python str.strip: remove leading and trailing whitespace. -/
def trimL (l : List Char) : List Char :=
  ((l.dropWhile isSpaceC).reverse.dropWhile isSpaceC).reverse

/-- Parse a run of decimal digits into a number; none on a non-digit. -/
def digitsToNat : List Char → Nat → Option Nat
  | [], acc => some acc
  | c :: cs, acc =>
    if '0' ≤ c ∧ c ≤ '9' then digitsToNat cs (acc * 10 + (c.toNat - 48))
    else none

/-- Python int() applied to a string: surrounding whitespace is stripped,
an optional single sign is allowed, and a remainder that is not a
non-empty digit run raises ValueError (none here; the underscore digit
grouping Python additionally accepts is not modelled). -/
def pyInt (s : String) : Option Int :=
  match trimL s.data with
  | [] => none
  | '-' :: rest =>
    if rest = [] then none
    else (digitsToNat rest 0).map (fun n => -(n : Int))
  | '+' :: rest =>
    if rest = [] then none
    else (digitsToNat rest 0).map (fun n => (n : Int))
  | l => (digitsToNat l 0).map (fun n => (n : Int))

/-- ASCII lowercasing of a string, as Python str.lower acts on the ASCII
header names compared here. -/
def lowerStr (s : String) : String :=
  ⟨s.data.map Char.toLower⟩

/-- Parse the integer HTTP status from the status line
(src/slack.py line 320): the second space-separated token, converted by
int(); none models the IndexError when there is no second token and the
ValueError when the token is not numeric. -/
def statusOf (statusLine : String) : Option Int :=
  match (splitOnAll statusLine " ")[1]? with
  | none => none
  | some tok => pyInt tok

/-- The Retry-After scan of src/slack.py lines 323-332: walk the header
lines after the status line in order; a line without a colon makes the
two-element unpacking raise ValueError (error here), a line whose name
lowercases to retry-after yields int(value.strip()) (error when that
raises), and a completed walk without a match falls through (ok none). -/
def findRetryAfter : List String → Except Unit (Option Int)
  | [] => .ok none
  | h :: rest =>
    match splitOnFirst h ":" with
    | none => .error ()
    | some (name, value) =>
      if lowerStr name = "retry-after" then
        match pyInt value with
        | none => .error ()
        | some n => .ok (some n)
      else findRetryAfter rest

/-- Literal translation of http_request (src/slack.py lines 299-339),
with the transport modelled as the list of responses successive attempts
receive, and the performed attempts and sleeps recorded as an event list.
Each attempt consumes one transport response.  A failed transport
(non-zero return code or non-empty stderr) is retried after a 1000 ms
sleep with the budget decremented while the budget is positive, and
raises HttpError with http status 0 otherwise.  A parsed status of 429
with a Retry-After header sleeps the announced number of seconds times
1000 ms and retries with the call sites default budget of 5, the budget
argument of the recursive call at src/slack.py line 332 being omitted.
Otherwise the body after the first blank-line separator is returned when
the status is below 400 and raised inside HttpError when it is at least
400. -/
def http_request (url : String) (options : List (String × String))
    (timeout : Nat) : Nat → List TResp → HttpResult × List HEvent
  | maxRetries, [] =>
    (.noMoreResponses, [.attempt url (setHeader options) timeout maxRetries])
  | maxRetries, r :: rest =>
    let opts := setHeader options
    let att := HEvent.attempt url opts timeout maxRetries
    if r.rc ≠ 0 ∨ r.err ≠ "" then
      if 0 < maxRetries then
        let p := http_request url opts timeout (maxRetries - 1) rest
        (p.1, att :: .sleep 1000 :: p.2)
      else
        (.httpError url r.rc 0 r.err, [att])
    else
      match splitOnFirst r.out "\r\n\r\n" with
      | none => (.valueError, [att])
      | some (headerPart, body) =>
        let headers := splitOnAll headerPart "\r\n"
        match statusOf (headers.headD "") with
        | none => (.valueError, [att])
        | some status =>
          if status = 429 then
            match findRetryAfter headers.tail with
            | .error _ => (.valueError, [att])
            | .ok (some s) =>
              let p := http_request url opts timeout 5 rest
              (p.1, att :: .sleep (s * 1000) :: p.2)
            | .ok none =>
              if 400 ≤ status then (.httpError url r.rc status body, [att])
              else (.ok body, [att])
          else
            if 400 ≤ status then (.httpError url r.rc status body, [att])
            else (.ok body, [att])

/-- The number of transport attempts recorded in an event list. -/
def countAttempts (evs : List HEvent) : Nat :=
  (evs.filter fun e => match e with
    | .attempt _ _ _ _ => true
    | _ => false).length

/-- Setting the header option twice is the same as setting it once, so
every recursive attempt of http_request carries the same option map. -/
theorem setHeader_setHeader (o : List (String × String)) :
    setHeader (setHeader o) = setHeader o := by
  simp [setHeader, eraseA]

/-- One delivery of the host process hook: the command label (ignored by
the aggregation loop), the return code (-1 meaning more output follows),
and one stdout chunk and one stderr chunk. -/
structure PDelivery where
  label : String
  rc : Int
  out : String
  err : String

/-- The externally visible actions of hook_process_hashtable: a 10 ms
sleep suspension per failed file-descriptor check, and the single host
hook registration. -/
inductive PEvent where
  | sleep : Nat → PEvent
  | hookProcess : String → Nat → PEvent
deriving DecidableEq

/-- The delivery aggregation loop of src/slack.py lines 276-285: starting
from return code -1, each iteration awaits one delivery, appends its
stdout and stderr chunks to the accumulating buffers, and continues while
the delivered return code is -1; the first delivery with another return
code ends the loop and is the process exit code.  none models running out
of modelled deliveries while the loop still awaits one. -/
def accumulateProcess : List PDelivery → String → String →
    Option (Int × String × String)
  | [], _, _ => none
  | d :: rest, o, e =>
    let o2 := o ++ d.out
    let e2 := e ++ d.err
    if d.rc = -1 then accumulateProcess rest o2 e2 else some (d.rc, o2, e2)

/-- Literal translation of hook_process_hashtable (src/slack.py lines
262-296), with the successive readings of available_file_descriptors()
modelled as a list of integers (the function reads the OS descriptor
table) and the host process deliveries as a list.  While a reading is
below 10 the coroutine sleeps 10 ms and checks again; once a reading is
at least 10 the host process hook is registered and the deliveries are
aggregated.  The returned tuple is (command, return code, stdout,
stderr); none models running out of modelled readings or deliveries. -/
def hook_process_hashtable (command : String) (timeout : Nat) :
    List Int → List PDelivery →
    Option (List PEvent × (String × Int × String × String))
  | [], _ => none
  | fd :: fds, ds =>
    if fd < 10 then
      match hook_process_hashtable command timeout fds ds with
      | none => none
      | some (evs, res) => some (.sleep 10 :: evs, res)
    else
      match accumulateProcess ds "" "" with
      | none => none
      | some (rc, o, e) =>
        some ([.hookProcess command timeout], (command, rc, o, e))

/-- C1: when a coroutine yields a Future whose id is already a key of
active_responses, the run loop pops the stored result and immediately
resumes the same coroutine with it, leaving active_tasks unchanged (the
task is not parked, so no host round trip occurs for that id); and a task
whose coroutine returns a value v synchronously, awaited later by another
task, delivers exactly v to that awaiter. -/
theorem task_runner_stored_response_immediate_resume :
    (∀ (V : Type) (fuel : Nat) (task : MTask V) (response r : V)
        (fid : String) (k : V → Coro V) (st : Sched V),
      task.co response = .yieldF fid k →
      lookupA st.active_responses fid = some r →
      task_runner (fuel + 1) task response st =
        task_runner fuel ⟨task.id, k, task.final⟩ r
          ⟨st.active_tasks, eraseA st.active_responses fid⟩) ∧
    (∀ (V : Type) (v init : V) (cid pid : String),
      create_task 1 (Coro.ret v) false cid init ⟨[], []⟩ =
        .ok ⟨[], [(cid, v)]⟩ ∧
      create_task 2 (Coro.yieldF cid Coro.ret) false pid init
          ⟨[], [(cid, v)]⟩ =
        .ok ⟨[], [(pid, v)]⟩) := by
  constructor
  · intro V fuel task response r fid k st hco hr
    exact task_runner_yield_hit hco hr
  · intro V v init cid pid
    constructor
    · simp [create_task, task_runner, lookupA, insertA]
    · simp [create_task, task_runner, lookupA, eraseA, insertA]

/-- Witness for C1: a concrete task suspended on Future id f with a
stored response 7 is resumed with 7 at once, active_tasks untouched. -/
theorem task_runner_stored_response_immediate_resume_witness :
    task_runner (V := Nat) (0 + 1)
        ⟨"p", fun _ => Coro.yieldF "f" Coro.ret, false⟩ 0 ⟨[], [("f", 7)]⟩ =
      task_runner 0 ⟨"p", Coro.ret, false⟩ 7
        ⟨[], eraseA [("f", 7)] "f"⟩ :=
  task_runner_stored_response_immediate_resume.1 Nat 0
    ⟨"p", fun _ => Coro.yieldF "f" Coro.ret, false⟩ 0 7 "f" Coro.ret
    ⟨[], [("f", 7)]⟩ rfl rfl

/-- C2: the registry invariant (no id is a key of both active_tasks and
active_responses, and neither registry has duplicate keys) holds at the
empty state and is preserved by every successful run of task_runner,
create_task and weechat_task_cb; and a completed task value is disposed
of in exactly one way (resumed into the popped parent, stored once when
not final, discarded when final), while an id that is already a key of
the registry about to be written raises a fatal exception instead of
being silently overwritten. -/
theorem scheduler_registry_invariants :
    (∀ (V : Type), Inv (⟨[], []⟩ : Sched V)) ∧
    (∀ (V : Type) (fuel : Nat) (task : MTask V) (response : V)
        (st st' : Sched V),
      Inv st → task_runner fuel task response st = .ok st' → Inv st') ∧
    (∀ (V : Type) (fuel : Nat) (c : Coro V) (final : Bool) (id : String)
        (init : V) (st st' : Sched V),
      Inv st → create_task fuel c final id init st = .ok st' → Inv st') ∧
    (∀ (V : Type) (fuel : Nat) (data : String) (args : V)
        (st st' : Sched V),
      Inv st → weechat_task_cb fuel data args st = .ok st' → Inv st') ∧
    (∀ (V : Type) (fuel : Nat) (task parent : MTask V) (response v : V)
        (st : Sched V),
      task.co response = .ret v →
      lookupA st.active_tasks task.id = some parent →
      task_runner (fuel + 1) task response st =
        task_runner fuel parent v
          ⟨eraseA st.active_tasks task.id, st.active_responses⟩) ∧
    (∀ (V : Type) (fuel : Nat) (task : MTask V) (response v : V)
        (st : Sched V),
      task.co response = .ret v →
      lookupA st.active_tasks task.id = none →
      lookupA st.active_responses task.id = none →
      task.final = false →
      task_runner (fuel + 1) task response st =
        .ok ⟨st.active_tasks, insertA st.active_responses task.id v⟩) ∧
    (∀ (V : Type) (fuel : Nat) (task : MTask V) (response v : V)
        (st : Sched V),
      task.co response = .ret v →
      lookupA st.active_tasks task.id = none →
      lookupA st.active_responses task.id = none →
      task.final = true →
      task_runner (fuel + 1) task response st = .ok st) ∧
    (∀ (V : Type) (fuel : Nat) (task : MTask V) (response : V)
        (fid : String) (k : V → Coro V) (p : MTask V) (st : Sched V),
      task.co response = .yieldF fid k →
      lookupA st.active_responses fid = none →
      lookupA st.active_tasks fid = some p →
      task_runner (fuel + 1) task response st =
        .error (.futureInActiveTasks fid)) ∧
    (∀ (V : Type) (fuel : Nat) (task : MTask V) (response v w : V)
        (st : Sched V),
      task.co response = .ret v →
      lookupA st.active_tasks task.id = none →
      lookupA st.active_responses task.id = some w →
      task_runner (fuel + 1) task response st =
        .error (.taskInActiveResponses task.id)) := by
  refine ⟨?_, ?_, ?_, ?_, ?_, ?_, ?_, ?_, ?_⟩
  · intro V
    exact ⟨fun id h => by simp [keysA] at h, by simp [keysA], by simp [keysA]⟩
  · intro V fuel task response st st' hInv h
    exact task_runner_preserves_Inv fuel task response st st' hInv h
  · intro V fuel c final id init st st' hInv h
    exact task_runner_preserves_Inv fuel _ init st st' hInv h
  · intro V fuel data args st st' hInv h
    rw [weechat_task_cb] at h
    cases ht : lookupA st.active_tasks data with
    | none => rw [ht] at h; exact absurd h (by simp)
    | some task =>
      rw [ht] at h
      simp only at h
      exact task_runner_preserves_Inv fuel task args _ st'
        (Inv_erase_tasks hInv) h
  · intro V fuel task parent response v st hco ht
    exact task_runner_ret_resume hco ht
  · intro V fuel task response v st hco ht hr hf
    exact task_runner_ret_store hco ht hr hf
  · intro V fuel task response v st hco ht hr hf
    exact task_runner_ret_discard hco ht hr hf
  · intro V fuel task response fid k p st hco hr ht
    exact task_runner_yield_fatal hco hr ht
  · intro V fuel task response v w st hco ht hr
    exact task_runner_ret_fatal hco ht hr

/-- Witness for C2: the state reached by running a concrete non-final
task from the empty state satisfies the registry invariant. -/
theorem scheduler_registry_invariants_witness :
    Inv (V := Nat) ⟨[], [("c", 42)]⟩ :=
  scheduler_registry_invariants.2.1 Nat 1 ⟨"c", fun _ => Coro.ret 42, false⟩
    0 ⟨[], []⟩ ⟨[], [("c", 42)]⟩ (scheduler_registry_invariants.1 Nat) rfl

/-- C4: the try block of task_runner catches only StopIteration, so an
exception raised by a final task coroutine propagates out of task_runner
and create_task (first conjunct, from src/slack.py); the top-level driver
for final tasks, modelled from the spec because the module holding it is
not included under src/, catches exactly that propagated exception,
appends an UncaughtError record with an id, a timestamp and the exception
to the history list, and returns normally instead of letting the
exception escape to the host (second conjunct). -/
theorem final_task_uncaught_error_recorded :
    (∀ (V : Type) (fuel : Nat) (e : String) (final : Bool) (id : String)
        (init : V) (st : Sched V),
      create_task (fuel + 1) (Coro.raiseE e) final id init st =
        .error (.uncaught e)) ∧
    (∀ (V : Type) (fuel : Nat) (c : Coro V) (id : String) (time : Nat)
        (init : V) (st : Sched V) (history : List UncaughtError)
        (e : String),
      create_task fuel c true id init st = .error (.uncaught e) →
      create_task_final fuel c id time init st history =
        .ok (st, history ++ [⟨id, time, e⟩])) := by
  constructor
  · intro V fuel e final id init st
    exact task_runner_raise rfl
  · intro V fuel c id time init st history e h
    simp [create_task_final, h]

/-- Witness for C4: a concrete final task that raises at once yields a
recorded UncaughtError and a normal return of the driver. -/
theorem final_task_uncaught_error_recorded_witness :
    create_task_final 1 (Coro.raiseE "boom") "t0" 7 (0 : Nat) ⟨[], []⟩ [] =
      .ok (⟨[], []⟩, [⟨"t0", 7, "boom"⟩]) :=
  final_task_uncaught_error_recorded.2 Nat 1 (Coro.raiseE "boom") "t0" 7 0
    ⟨[], []⟩ [] "boom" rfl

/-- The event trace of a run of http_request whose every transport
attempt fails: one attempt per remaining budget value, each retry
preceded by a 1000 ms sleep. -/
def failTrace (url : String) (opts : List (String × String))
    (timeout : Nat) : Nat → List HEvent
  | 0 => [.attempt url opts timeout 0]
  | n + 1 => .attempt url opts timeout (n + 1) :: .sleep 1000 ::
      failTrace url opts timeout n

theorem countAttempts_attempt (u : String) (o : List (String × String))
    (t m : Nat) (l : List HEvent) :
    countAttempts (.attempt u o t m :: l) = countAttempts l + 1 := by
  simp [countAttempts]

theorem countAttempts_sleep (m : Int) (l : List HEvent) :
    countAttempts (.sleep m :: l) = countAttempts l := by
  simp [countAttempts]

/-- Transport failure with remaining budget: log, sleep 1000 ms, retry
with the budget decremented (src/slack.py lines 307-315). -/
theorem http_request_tfail_retry {url : String}
    {opts : List (String × String)} {timeout mr : Nat} {r : TResp}
    {rest : List TResp} (hfail : r.rc ≠ 0 ∨ r.err ≠ "") (hmr : 0 < mr) :
    http_request url opts timeout mr (r :: rest) =
      ((http_request url (setHeader opts) timeout (mr - 1) rest).1,
        .attempt url (setHeader opts) timeout mr :: .sleep 1000 ::
        (http_request url (setHeader opts) timeout (mr - 1) rest).2) := by
  simp only [http_request, if_pos hfail, if_pos hmr]

/-- Transport failure with exhausted budget: raise HttpError with http
status 0 and the transport stderr (src/slack.py line 316). -/
theorem http_request_tfail_raise {url : String}
    {opts : List (String × String)} {timeout : Nat} {r : TResp}
    {rest : List TResp} (hfail : r.rc ≠ 0 ∨ r.err ≠ "") :
    http_request url opts timeout 0 (r :: rest) =
      (.httpError url r.rc 0 r.err,
        [.attempt url (setHeader opts) timeout 0]) := by
  simp only [http_request, if_pos hfail, Nat.lt_irrefl, if_false]

/-- Transport success without the blank-line separator in the response
text: str.index raises ValueError (src/slack.py line 318). -/
theorem http_request_no_separator {url : String}
    {opts : List (String × String)} {timeout mr : Nat} {r : TResp}
    {rest : List TResp} (hrc : r.rc = 0) (herr : r.err = "")
    (hsplit : splitOnFirst r.out "\r\n\r\n" = none) :
    http_request url opts timeout mr (r :: rest) =
      (.valueError, [.attempt url (setHeader opts) timeout mr]) := by
  simp only [http_request, hrc, herr, ne_eq, not_true_eq_false, or_self,
    if_false, hsplit]

/-- Transport success, parsed status below 400: the body after the
separator is returned (src/slack.py line 339). -/
theorem http_request_success {url : String}
    {opts : List (String × String)} {timeout mr : Nat} {r : TResp}
    {rest : List TResp} {hp body : String} {status : Int}
    (hrc : r.rc = 0) (herr : r.err = "")
    (hsplit : splitOnFirst r.out "\r\n\r\n" = some (hp, body))
    (hstatus : statusOf ((splitOnAll hp "\r\n").headD "") = some status)
    (hlt : status < 400) :
    http_request url opts timeout mr (r :: rest) =
      (.ok body, [.attempt url (setHeader opts) timeout mr]) := by
  have h429 : status ≠ 429 := by omega
  have hge : ¬ (400 ≤ status) := by omega
  simp only [http_request, hrc, herr, ne_eq, not_true_eq_false, or_self,
    if_false, hsplit, hstatus, if_neg h429, if_neg hge]

/-- Transport success, parsed status at least 400 and not 429: raise
HttpError carrying the status and the body (src/slack.py line 337). -/
theorem http_request_status_error {url : String}
    {opts : List (String × String)} {timeout mr : Nat} {r : TResp}
    {rest : List TResp} {hp body : String} {status : Int}
    (hrc : r.rc = 0) (herr : r.err = "")
    (hsplit : splitOnFirst r.out "\r\n\r\n" = some (hp, body))
    (hstatus : statusOf ((splitOnAll hp "\r\n").headD "") = some status)
    (hge : 400 ≤ status) (h429 : status ≠ 429) :
    http_request url opts timeout mr (r :: rest) =
      (.httpError url r.rc status body,
        [.attempt url (setHeader opts) timeout mr]) := by
  simp only [http_request, hrc, herr, ne_eq, not_true_eq_false, or_self,
    if_false, hsplit, hstatus, if_neg h429, if_pos hge]

/-- Transport success, status 429, Retry-After found with value s: sleep
s times 1000 ms and retry with the default budget of 5, the recursive
call at src/slack.py line 332 passing no max_retries argument. -/
theorem http_request_429_retry {url : String}
    {opts : List (String × String)} {timeout mr : Nat} {r : TResp}
    {rest : List TResp} {hp body : String} {s : Int}
    (hrc : r.rc = 0) (herr : r.err = "")
    (hsplit : splitOnFirst r.out "\r\n\r\n" = some (hp, body))
    (hstatus : statusOf ((splitOnAll hp "\r\n").headD "") = some 429)
    (hfind : findRetryAfter (splitOnAll hp "\r\n").tail = .ok (some s)) :
    http_request url opts timeout mr (r :: rest) =
      ((http_request url (setHeader opts) timeout 5 rest).1,
        .attempt url (setHeader opts) timeout mr :: .sleep (s * 1000) ::
        (http_request url (setHeader opts) timeout 5 rest).2) := by
  simp only [http_request, hrc, herr, ne_eq, not_true_eq_false, or_self,
    if_false, hsplit, hstatus, if_pos rfl, hfind, if_true]

/-- Transport success, status 429 but the header scan completes without
a Retry-After match: fall through to the status check and raise HttpError
with status 429 and the body. -/
theorem http_request_429_no_retry_after {url : String}
    {opts : List (String × String)} {timeout mr : Nat} {r : TResp}
    {rest : List TResp} {hp body : String}
    (hrc : r.rc = 0) (herr : r.err = "")
    (hsplit : splitOnFirst r.out "\r\n\r\n" = some (hp, body))
    (hstatus : statusOf ((splitOnAll hp "\r\n").headD "") = some 429)
    (hfind : findRetryAfter (splitOnAll hp "\r\n").tail = .ok none) :
    http_request url opts timeout mr (r :: rest) =
      (.httpError url r.rc 429 body,
        [.attempt url (setHeader opts) timeout mr]) := by
  simp only [http_request, hrc, herr, ne_eq, not_true_eq_false, or_self,
    if_false, hsplit, hstatus, if_pos rfl, hfind, if_true,
    if_pos (by omega : (400 : Int) ≤ 429)]

/-- A run of http_request whose every transport attempt fails consumes
one transport response per budget value, sleeping 1000 ms before each
retry, and ends raising HttpError with the last return code, http status
0 and the last stderr. -/
theorem http_request_all_fail (url : String) (timeout : Nat) :
    ∀ (init : List TResp) (opts : List (String × String)) (last : TResp),
      (∀ x ∈ init, x.rc ≠ 0 ∨ x.err ≠ "") →
      (last.rc ≠ 0 ∨ last.err ≠ "") →
      http_request url opts timeout init.length (init ++ [last]) =
        (.httpError url last.rc 0 last.err,
          failTrace url (setHeader opts) timeout init.length)
  | [], opts, last, _, hlast => http_request_tfail_raise hlast
  | x :: init2, opts, last, hall, hlast => by
    have hx := hall x (List.mem_cons_self x init2)
    have hrest : ∀ y ∈ init2, y.rc ≠ 0 ∨ y.err ≠ "" :=
      fun y hy => hall y (List.mem_cons_of_mem _ hy)
    show http_request url opts timeout (init2.length + 1)
        (x :: (init2 ++ [last])) = _
    rw [http_request_tfail_retry hx (by omega)]
    rw [show init2.length + 1 - 1 = init2.length from rfl]
    rw [http_request_all_fail url timeout init2 (setHeader opts) last
      hrest hlast]
    rw [setHeader_setHeader]
    rfl

/-- C5: against a transport whose every attempt fails (non-zero return
code or non-empty stderr), http_request performs exactly max_retries + 1
attempts, each retry preceded by a 1000 ms suspension, and finally raises
HttpError with http status 0 and the transport stderr; the failTrace
event list makes the attempt count and the sleeps explicit, and it holds
exactly max_retries + 1 attempt events. -/
theorem http_request_transport_failure_retries :
    (∀ (url : String) (opts : List (String × String)) (timeout : Nat)
        (init : List TResp) (last : TResp),
      (∀ x ∈ init, x.rc ≠ 0 ∨ x.err ≠ "") →
      (last.rc ≠ 0 ∨ last.err ≠ "") →
      http_request url opts timeout init.length (init ++ [last]) =
        (.httpError url last.rc 0 last.err,
          failTrace url (setHeader opts) timeout init.length)) ∧
    (∀ (url : String) (opts : List (String × String)) (timeout mr : Nat),
      countAttempts (failTrace url opts timeout mr) = mr + 1) := by
  constructor
  · intro url opts timeout init last hall hlast
    exact http_request_all_fail url timeout init opts last hall hlast
  · intro url opts timeout mr
    induction mr with
    | zero => simp [failTrace, countAttempts]
    | succ n ih =>
      rw [failTrace, countAttempts_attempt, countAttempts_sleep, ih]

/-- Witness for C5: three failing attempts with max_retries = 2, ending
in HttpError with http status 0 and the stderr of the transport. -/
theorem http_request_transport_failure_retries_witness :
    http_request "u" [] 30 2
        [⟨1, "", "boom"⟩, ⟨1, "", "boom"⟩, ⟨1, "", "boom"⟩] =
      (.httpError "u" 1 0 "boom", failTrace "u" (setHeader []) 30 2) :=
  http_request_transport_failure_retries.1 "u" [] 30
    [⟨1, "", "boom"⟩, ⟨1, "", "boom"⟩] ⟨1, "", "boom"⟩
    (by decide) (by decide)

/-- C6: on a successful transport round trip whose text splits into a
header part and a body at the first blank-line separator and whose status
line carries an integer status, http_request returns exactly the body
when the status is below 400, and raises HttpError carrying the status
and the body when the status is at least 400 (and not on the 429 retry
path); in particular the two concrete exchanges of the spec. -/
theorem http_request_status_parsing :
    (∀ (url : String) (opts : List (String × String)) (timeout mr : Nat)
        (r : TResp) (rest : List TResp) (hp body : String) (status : Int),
      r.rc = 0 → r.err = "" →
      splitOnFirst r.out "\r\n\r\n" = some (hp, body) →
      statusOf ((splitOnAll hp "\r\n").headD "") = some status →
      (status < 400 →
        http_request url opts timeout mr (r :: rest) =
          (.ok body, [.attempt url (setHeader opts) timeout mr])) ∧
      (400 ≤ status → status ≠ 429 →
        http_request url opts timeout mr (r :: rest) =
          (.httpError url r.rc status body,
            [.attempt url (setHeader opts) timeout mr]))) ∧
    http_request "u" [] 30 5 [⟨0, "HTTP/1.1 200 OK\r\n\r\nhello", ""⟩] =
      (.ok "hello", [.attempt "u" [("header", "1")] 30 5]) ∧
    http_request "u" [] 30 5
        [⟨0, "HTTP/1.1 404 Not Found\r\nX: y\r\n\r\nbody text", ""⟩] =
      (.httpError "u" 0 404 "body text",
        [.attempt "u" [("header", "1")] 30 5]) := by
  refine ⟨?_, by decide, by decide⟩
  intro url opts timeout mr r rest hp body status hrc herr hsplit hstatus
  exact ⟨fun hlt => http_request_success hrc herr hsplit hstatus hlt,
    fun hge h429 => http_request_status_error hrc herr hsplit hstatus hge h429⟩

/-- Witness for C6: the 404 exchange, through the general statement. -/
theorem http_request_status_parsing_witness :
    http_request "w" [] 30 5
        [⟨0, "HTTP/1.1 404 Not Found\r\nX: y\r\n\r\nbody text", ""⟩] =
      (.httpError "w" 0 404 "body text",
        [.attempt "w" [("header", "1")] 30 5]) :=
  (http_request_status_parsing.1 "w" [] 30 5
      ⟨0, "HTTP/1.1 404 Not Found\r\nX: y\r\n\r\nbody text", ""⟩ []
      "HTTP/1.1 404 Not Found\r\nX: y" "body text" 404
      rfl rfl (by decide) (by decide)).2 (by decide) (by decide)

/-- C3: a response with status 429 whose header scan finds Retry-After
with integer value s makes http_request sleep exactly s times 1000 ms and
reissue the request with the same url, (header-adjusted) options and
timeout; the retry budget is not decremented but reset to the default 5,
because the recursive call at src/slack.py line 332 omits the max_retries
argument, so a chain of n such 429 responses is retried n times whatever
the remaining budget, even a budget of zero. -/
theorem http_request_ratelimit_retry :
    (∀ (url : String) (opts : List (String × String)) (timeout mr : Nat)
        (r : TResp) (rest : List TResp) (hp body : String) (s : Int),
      r.rc = 0 → r.err = "" →
      splitOnFirst r.out "\r\n\r\n" = some (hp, body) →
      statusOf ((splitOnAll hp "\r\n").headD "") = some 429 →
      findRetryAfter (splitOnAll hp "\r\n").tail = .ok (some s) →
      http_request url opts timeout mr (r :: rest) =
        ((http_request url (setHeader opts) timeout 5 rest).1,
          .attempt url (setHeader opts) timeout mr :: .sleep (s * 1000) ::
          (http_request url (setHeader opts) timeout 5 rest).2)) ∧
    (∀ (url : String) (opts : List (String × String)) (timeout mr n : Nat)
        (r : TResp) (hp body : String) (s : Int),
      r.rc = 0 → r.err = "" →
      splitOnFirst r.out "\r\n\r\n" = some (hp, body) →
      statusOf ((splitOnAll hp "\r\n").headD "") = some 429 →
      findRetryAfter (splitOnAll hp "\r\n").tail = .ok (some s) →
      countAttempts
        (http_request url opts timeout mr (List.replicate n r)).2 = n + 1) := by
  constructor
  · intro url opts timeout mr r rest hp body s hrc herr hsplit hstatus hfind
    exact http_request_429_retry hrc herr hsplit hstatus hfind
  · intro url opts timeout mr n r hp body s hrc herr hsplit hstatus hfind
    induction n generalizing opts mr with
    | zero =>
      simp [http_request, countAttempts]
    | succ n ih =>
      rw [List.replicate_succ,
        http_request_429_retry hrc herr hsplit hstatus hfind]
      simp only [countAttempts_attempt, countAttempts_sleep, ih]

/-- Witness for C3: a 429 response announcing Retry-After 3 sleeps 3000
ms and retries with the default budget of 5 although called with budget
2. -/
theorem http_request_ratelimit_retry_witness :
    http_request "u" [] 30 2
        [⟨0, "HTTP/1.1 429 Too Many\r\nRetry-After: 3\r\n\r\nb", ""⟩,
         ⟨0, "HTTP/1.1 200 OK\r\n\r\nok", ""⟩] =
      ((http_request "u" (setHeader []) 30 5
          [⟨0, "HTTP/1.1 200 OK\r\n\r\nok", ""⟩]).1,
        .attempt "u" (setHeader []) 30 2 :: .sleep (3 * 1000) ::
        (http_request "u" (setHeader []) 30 5
          [⟨0, "HTTP/1.1 200 OK\r\n\r\nok", ""⟩]).2) :=
  http_request_ratelimit_retry.1 "u" [] 30 2
    ⟨0, "HTTP/1.1 429 Too Many\r\nRetry-After: 3\r\n\r\nb", ""⟩
    [⟨0, "HTTP/1.1 200 OK\r\n\r\nok", ""⟩]
    "HTTP/1.1 429 Too Many\r\nRetry-After: 3" "b" 3
    rfl rfl (by decide) (by decide) rfl

/-- C9: a 429 response whose header lines scan to completion without a
Retry-After match (every line splits at a colon and none is named
retry-after case-insensitively) performs no sleep and no retry: the only
event is the single attempt, and http_request raises HttpError with http
status 429 and the response body. -/
theorem http_request_ratelimit_without_header :
    ∀ (url : String) (opts : List (String × String)) (timeout mr : Nat)
        (r : TResp) (rest : List TResp) (hp body : String),
      r.rc = 0 → r.err = "" →
      splitOnFirst r.out "\r\n\r\n" = some (hp, body) →
      statusOf ((splitOnAll hp "\r\n").headD "") = some 429 →
      findRetryAfter (splitOnAll hp "\r\n").tail = .ok none →
      http_request url opts timeout mr (r :: rest) =
        (.httpError url r.rc 429 body,
          [.attempt url (setHeader opts) timeout mr]) := by
  intro url opts timeout mr r rest hp body hrc herr hsplit hstatus hfind
  exact http_request_429_no_retry_after hrc herr hsplit hstatus hfind

/-- Witness for C9: a concrete 429 response without a Retry-After header
raises HttpError 429 with the body after one attempt. -/
theorem http_request_ratelimit_without_header_witness :
    http_request "u" [] 30 5 [⟨0, "HTTP/1.1 429 x\r\nA: b\r\n\r\nbody", ""⟩] =
      (.httpError "u" 0 429 "body", [.attempt "u" (setHeader []) 30 5]) :=
  http_request_ratelimit_without_header "u" [] 30 5
    ⟨0, "HTTP/1.1 429 x\r\nA: b\r\n\r\nbody", ""⟩ []
    "HTTP/1.1 429 x\r\nA: b" "body" rfl rfl (by decide) (by decide)
    rfl

/-- C10: a successful transport response whose text holds no blank-line
separator makes http_request raise the ValueError of str.index, an
exception distinct from every HttpError, so the HttpError interface does
not cover malformed framing. -/
theorem http_request_malformed_framing :
    (∀ (url : String) (opts : List (String × String)) (timeout mr : Nat)
        (r : TResp) (rest : List TResp),
      r.rc = 0 → r.err = "" →
      splitOnFirst r.out "\r\n\r\n" = none →
      http_request url opts timeout mr (r :: rest) =
        (.valueError, [.attempt url (setHeader opts) timeout mr])) ∧
    (∀ (u : String) (rc s : Int) (e : String),
      HttpResult.valueError ≠ HttpResult.httpError u rc s e) := by
  constructor
  · intro url opts timeout mr r rest hrc herr hsplit
    exact http_request_no_separator hrc herr hsplit
  · intro u rc s e h
    exact HttpResult.noConfusion h

/-- Witness for C10: a separator-free response text yields the ValueError
outcome. -/
theorem http_request_malformed_framing_witness :
    http_request "u" [] 30 5 [⟨0, "no separator here", ""⟩] =
      (.valueError, [.attempt "u" (setHeader []) 30 5]) :=
  http_request_malformed_framing.1 "u" [] 30 5 ⟨0, "no separator here", ""⟩
    [] rfl rfl (by decide)

/-- Concatenation of the stdout chunks of a delivery list, in order. -/
def joinOuts : List PDelivery → String
  | [] => ""
  | d :: rest => d.out ++ joinOuts rest

/-- Concatenation of the stderr chunks of a delivery list, in order. -/
def joinErrs : List PDelivery → String
  | [] => ""
  | d :: rest => d.err ++ joinErrs rest

/-- The aggregation loop consumes deliveries exactly while the return
code is -1: on a delivery list whose first non-(-1) delivery is last, it
returns the return code of last and the buffers extended by every chunk
up to and including last, whatever follows. -/
theorem accumulateProcess_spec :
    ∀ (pre : List PDelivery) (last : PDelivery) (post : List PDelivery)
        (o e : String),
      (∀ d ∈ pre, d.rc = -1) → last.rc ≠ -1 →
      accumulateProcess (pre ++ last :: post) o e =
        some (last.rc, o ++ joinOuts (pre ++ [last]),
          e ++ joinErrs (pre ++ [last]))
  | [], last, post, o, e, _, hlast => by
    simp only [List.nil_append, accumulateProcess, if_neg hlast]
    simp [joinOuts, joinErrs, String.append_empty]
  | d :: pre2, last, post, o, e, hall, hlast => by
    have hd := hall d (List.mem_cons_self d pre2)
    simp only [List.cons_append, accumulateProcess, if_pos hd]
    simp only [List.append_eq]
    rw [accumulateProcess_spec pre2 last post (o ++ d.out) (e ++ d.err)
      (fun y hy => hall y (List.mem_cons_of_mem _ hy)) hlast]
    simp [joinOuts, joinErrs, String.append_assoc]

/-- With only readings below 10, the descriptor gate keeps sleeping and
the host process hook is never registered. -/
theorem hook_process_never_below_ten :
    ∀ (cmd : String) (tmo : Nat) (fds : List Int) (ds : List PDelivery),
      (∀ x ∈ fds, x < 10) →
      hook_process_hashtable cmd tmo fds ds = none
  | cmd, tmo, [], ds, _ => rfl
  | cmd, tmo, x :: fds2, ds, hall => by
    simp only [hook_process_hashtable,
      if_pos (hall x (List.mem_cons_self x fds2))]
    rw [hook_process_never_below_ten cmd tmo fds2 ds
      (fun y hy => hall y (List.mem_cons_of_mem _ hy))]

/-- With low readings followed by a reading of at least 10, the gate
sleeps 10 ms once per low reading and then registers the hook once. -/
theorem hook_process_gate_spec :
    ∀ (cmd : String) (tmo : Nat) (low : List Int) (fd : Int)
        (rest : List Int) (ds : List PDelivery) (rc : Int) (o e : String),
      (∀ x ∈ low, x < 10) → 10 ≤ fd →
      accumulateProcess ds "" "" = some (rc, o, e) →
      hook_process_hashtable cmd tmo (low ++ fd :: rest) ds =
        some (List.replicate low.length (.sleep 10) ++
          [.hookProcess cmd tmo], (cmd, rc, o, e))
  | cmd, tmo, [], fd, rest, ds, rc, o, e, _, hfd, hacc => by
    simp only [List.nil_append, hook_process_hashtable,
      if_neg (by omega : ¬ fd < 10), hacc]
    simp
  | cmd, tmo, x :: low2, fd, rest, ds, rc, o, e, hall, hfd, hacc => by
    simp only [List.cons_append, hook_process_hashtable,
      if_pos (hall x (List.mem_cons_self x low2))]
    simp only [List.append_eq]
    rw [hook_process_gate_spec cmd tmo low2 fd rest ds rc o e
      (fun y hy => hall y (List.mem_cons_of_mem _ hy)) hfd hacc]
    simp [List.replicate_succ]

/-- C7: for any sequence of host process deliveries received by
hook_process_hashtable, the await loop continues exactly while the
delivered return code equals -1: the returned stdout is the concatenation
of the stdout chunks of all consumed deliveries in delivery order
(likewise stderr), the returned return code is that of the first delivery
with another return code, and anything delivered after it is not
consumed. -/
theorem hook_process_delivery_aggregation :
    ∀ (cmd : String) (tmo : Nat) (fd : Int) (pre : List PDelivery)
        (last : PDelivery) (post : List PDelivery),
      10 ≤ fd →
      (∀ d ∈ pre, d.rc = -1) → last.rc ≠ -1 →
      hook_process_hashtable cmd tmo [fd] (pre ++ last :: post) =
        some ([.hookProcess cmd tmo],
          (cmd, last.rc, joinOuts (pre ++ [last]),
            joinErrs (pre ++ [last]))) := by
  intro cmd tmo fd pre last post hfd hall hlast
  have hacc := accumulateProcess_spec pre last post "" "" hall hlast
  rw [String.empty_append, String.empty_append] at hacc
  exact hook_process_gate_spec cmd tmo [] fd [] (pre ++ last :: post)
    last.rc _ _ (by simp) hfd hacc

/-- Witness for C7: the deliveries (-1, ab), (-1, cd), (0, ef) yield
stdout abcdef and return code 0. -/
theorem hook_process_delivery_aggregation_witness :
    hook_process_hashtable "c" 30 [10]
        [⟨"", -1, "ab", ""⟩, ⟨"", -1, "cd", ""⟩, ⟨"", 0, "ef", ""⟩] =
      some ([.hookProcess "c" 30], ("c", 0, "abcdef", "")) := by
  have h := hook_process_delivery_aggregation "c" 30 10
    [⟨"", -1, "ab", ""⟩, ⟨"", -1, "cd", ""⟩] ⟨"", 0, "ef", ""⟩ []
    (by omega) (by decide) (by decide)
  exact h.trans (by decide)

/-- C8: the host process hook is never registered while the available
file descriptor readings stay below 10 (first conjunct: with only low
readings the run produces no trace at all, in particular no hookProcess
event), and with any run of low readings followed by a reading of at
least 10, the coroutine sleeps exactly 10 ms per low reading and then
issues the hook registration exactly once. -/
theorem hook_process_fd_gate :
    (∀ (cmd : String) (tmo : Nat) (fds : List Int) (ds : List PDelivery),
      (∀ x ∈ fds, x < 10) →
      hook_process_hashtable cmd tmo fds ds = none) ∧
    (∀ (cmd : String) (tmo : Nat) (low : List Int) (fd : Int)
        (rest : List Int) (ds : List PDelivery) (rc : Int) (o e : String),
      (∀ x ∈ low, x < 10) → 10 ≤ fd →
      accumulateProcess ds "" "" = some (rc, o, e) →
      hook_process_hashtable cmd tmo (low ++ fd :: rest) ds =
        some (List.replicate low.length (.sleep 10) ++
          [.hookProcess cmd tmo], (cmd, rc, o, e))) :=
  ⟨hook_process_never_below_ten, hook_process_gate_spec⟩

/-- Witness for C8: one low reading causes one 10 ms sleep before the
single hook registration. -/
theorem hook_process_fd_gate_witness :
    hook_process_hashtable "c" 30 [3, 12] [⟨"", 0, "x", ""⟩] =
      some ([.sleep 10, .hookProcess "c" 30], ("c", 0, "x", "")) := by
  have h := hook_process_fd_gate.2 "c" 30 [3] 12 [] [⟨"", 0, "x", ""⟩]
    0 "x" "" (by decide) (by omega) (by decide)
  exact h.trans (by decide)

end WeeSlack
